import Mathlib

/-!
# Verification of the data-quality rule engine (`data_quality.py`)

Shallow embedding of the class `DataQualityChecker`: the four dimension
evaluators (`check_completeness`, `check_consistency`, `check_validity`,
`check_uniqueness`), the aggregator `run_all_checks`, and the scoring part of
`generate_quality_summary`.

Modeling conventions:
* A pandas cell is a `Value`: `null` models `NaN`/`None` (`pd.notna` is
  `Value.notna`); integers and strings are the dynamic types the rules touch.
  Python casing/whitespace functions are modeled over ASCII, which covers the
  column values the rules are designed for.
* A `DataFrame` is an ordered column-name list plus ordered rows; `df[c] = s`
  is `addCol`, which overwrites the column in place when the name exists and
  appends it at the end otherwise, exactly like pandas column assignment.
* Python `int(x)` / `float(x)` are `pyInt` / `pyFloat` returning `Option`
  (`none` models the `ValueError`/`TypeError` caught by the source); floats are
  taken as exact rationals (sign, digits, optional dot and exponent), which
  agrees with binary64 on every value the rules compare.
* The regexes of the source are compiled by hand into decidable predicates;
  `re.match` anchors at the start, `$` is modeled as end of string.
* Python integer division by zero raises; `consistency_percentage` therefore
  returns `Except`, with `error` modeling the `ZeroDivisionError`.
-/

inductive Value where
  | null : Value
  | int (n : Int) : Value
  | str (s : String) : Value
deriving DecidableEq, Repr

/-- `pd.notna`: false exactly on the missing value. -/
def Value.notna : Value → Bool
  | Value.null => false
  | _ => true

/-- Python `str(x)` on the value kinds the rules meet (never called on null,
which is guarded by `notna` in the source). -/
def pyStr : Value → String
  | Value.null => "None"
  | Value.int n => toString n
  | Value.str s => s

/-- Python `\s` class / `str.strip` whitespace (ASCII): space, tab, newline,
carriage return, vertical tab, form feed. -/
def isPySpace (c : Char) : Bool :=
  c == (' ') || c == ('\t') || c == ('\n') || c == ('\r') ||
    c == (Char.ofNat 11) || c == (Char.ofNat 12)

/-- Python `str.upper` (ASCII). -/
def pyUpper (s : String) : String :=
  String.mk (s.data.map Char.toUpper)

/-- Python `str.isupper`: at least one cased character and no lower-case
cased character (ASCII: cased = letter). -/
def pyIsUpper (s : String) : Bool :=
  s.data.any Char.isAlpha && s.data.all (fun c => !c.isAlpha || c.isUpper)

/-- State machine for Python `str.istitle`: upper-case letters may only follow
uncased characters, lower-case letters only cased ones, and at least one cased
character occurs.  First flag: previous character was cased; second flag: some
cased character was seen. -/
def pyIsTitleAux : Bool → Bool → List Char → Bool
  | _, found, [] => found
  | prevCased, found, c :: cs =>
    if c.isUpper then !prevCased && pyIsTitleAux true true cs
    else if c.isLower then prevCased && pyIsTitleAux true true cs
    else pyIsTitleAux false found cs

/-- Python `str.istitle` (ASCII). -/
def pyIsTitle (s : String) : Bool := pyIsTitleAux false false s.data

/-! ## Rule predicates (the per-value sub-checks of the source) -/

/-- Character class `[A-Z\s&\.\-\(\),]` of the company-name pattern. -/
def companyCharOK (c : Char) : Bool :=
  c.isUpper || isPySpace c || c == ('&') || c == ('.') || c == ('-') ||
    c == ('(') || c == (')') || c == (',')

/-- `re.match(r'^[A-Z][A-Z\s&\.\-\(\),]*$', s)` succeeds. -/
def companyNamePat (s : String) : Bool :=
  match s.data with
  | [] => false
  | c :: cs => c.isUpper && cs.all companyCharOK

/-- Company-name sub-check of `check_consistency`: flagged when the name is
neither fully upper-case nor title-case and fails the pattern. -/
def companyIssue (v : Value) : Bool :=
  !(pyIsUpper (pyStr v) || pyIsTitle (pyStr v)) && !companyNamePat (pyStr v)

def operationStatuses : List String := ["ACTIVE", "INACTIVE", "DORMANT", "LIQUIDATION"]

/-- Operation-status sub-check: upper-cased value must be in the fixed list. -/
def statusIssue (v : Value) : Bool :=
  !(decide (pyUpper (pyStr v) ∈ operationStatuses))

def ipoStatuses : List String := ["PUBLIC", "PRIVATE", "SUBSIDIARY"]

/-- IPO-status sub-check: upper-cased value must be in the fixed list. -/
def ipoIssue (v : Value) : Bool :=
  !(decide (pyUpper (pyStr v) ∈ ipoStatuses))

/-- `re.match(r'^[A-Z]{3}$', s)` succeeds: exactly three upper-case letters. -/
def currencyPat (s : String) : Bool :=
  s.data.length == 3 && s.data.all Char.isUpper

/-- Currency sub-check of `check_consistency`: the source upper-cases the
string form of the value *before* matching `^[A-Z]{3}$`. -/
def currencyIssue (v : Value) : Bool :=
  !currencyPat (pyUpper (pyStr v))

/-! ## Python numeric parsing (`int(x)`, `float(x)`) -/

def digitVal (c : Char) : Nat := c.toNat - 48

def digitsToNat (l : List Char) : Nat := l.foldl (fun a c => a * 10 + digitVal c) 0

/-- `str.strip()` (ASCII whitespace). -/
def stripPy (l : List Char) : List Char :=
  ((l.dropWhile isPySpace).reverse.dropWhile isPySpace).reverse

/-- A non-empty all-digit run, as a number. -/
def parseDigits (l : List Char) : Option Nat :=
  if !l.isEmpty && l.all Char.isDigit then some (digitsToNat l) else none

/-- Optional sign followed by digits. -/
def parseIntChars : List Char → Option Int
  | ('+') :: ds => (parseDigits ds).map Int.ofNat
  | ('-') :: ds => (parseDigits ds).map (fun n => -(n : Int))
  | ds => (parseDigits ds).map Int.ofNat

/-- Python `int(s)` on a string: strip whitespace, optional sign, digits. -/
def parseIntPy (s : String) : Option Int := parseIntChars (stripPy s.data)

/-- Python `int(x)`: `none` models the `ValueError`/`TypeError` the source
catches.  (`int` of a null is a `TypeError`.) -/
def pyInt : Value → Option Int
  | Value.null => none
  | Value.int n => some n
  | Value.str s => parseIntPy s

/-- Exponent suffix `([eE][+-]?digits)?`, as a power of ten; must consume the
whole remainder. -/
def parseExpPart : List Char → Option Int
  | [] => some 0
  | c :: rest => if c == ('e') || c == ('E') then parseIntChars rest else none

def qpow10 (e : Int) : ℚ := (10 : ℚ) ^ e

/-- Unsigned float literal: `digits[.digits][exp]` or `.digits[exp]`. -/
def parseUnsignedFloat (l : List Char) : Option ℚ :=
  let ip := l.takeWhile Char.isDigit
  let rest1 := l.dropWhile Char.isDigit
  match rest1 with
  | ('.') :: rest2 =>
    let fp := rest2.takeWhile Char.isDigit
    let rest3 := rest2.dropWhile Char.isDigit
    if ip.isEmpty && fp.isEmpty then none
    else (parseExpPart rest3).map (fun e =>
      ((digitsToNat ip : ℚ) + (digitsToNat fp : ℚ) / ((10 : ℚ) ^ fp.length)) * qpow10 e)
  | _ =>
    if ip.isEmpty then none
    else (parseExpPart rest1).map (fun e => (digitsToNat ip : ℚ) * qpow10 e)

/-- Signed float literal. -/
def parseFloatChars : List Char → Option ℚ
  | ('+') :: ds => parseUnsignedFloat ds
  | ('-') :: ds => (parseUnsignedFloat ds).map (fun q => -q)
  | ds => parseUnsignedFloat ds

/-- Python `float(s)` on a string (exact rational; `inf`/`nan` words omitted,
they do not occur in the data the rules target). -/
def parseFloatPy (s : String) : Option ℚ := parseFloatChars (stripPy s.data)

/-- Python `float(x)`. -/
def pyFloat : Value → Option ℚ
  | Value.null => none
  | Value.int n => some (n : ℚ)
  | Value.str s => parseFloatPy s

/-- Year sub-check of `check_validity`: `int(x)` must succeed and land in
`[1900, 2030]`; a parse failure is also flagged. -/
def timevalueIssue (v : Value) : Bool :=
  match pyInt v with
  | some y => !(decide (1900 ≤ y) && decide (y ≤ 2030))
  | none => true

/-- Revenue sub-check of `check_validity`: `float(x)` must succeed, be
non-negative and at most `1e15`. -/
def revenueIssue (v : Value) : Bool :=
  match pyFloat v with
  | some x => decide (x < 0) || decide ((10 : ℚ) ^ (15 : Nat) < x)
  | none => true

def monthAbbrevs : List String :=
  ["Jan", "Feb", "Mar", "Apr", "May", "Jun", "Jul", "Aug", "Sep", "Oct", "Nov", "Dec"]

/-- Suffix `-(Jan|...|Dec)` reaching the end of the string. -/
def dashMonth : List Char → Bool
  | ('-') :: m => decide (String.mk m ∈ monthAbbrevs)
  | _ => false

/-- `re.match(r'^\d{1,2}-(Jan|...|Dec)$', s)` succeeds. -/
def fiscalPat (s : String) : Bool :=
  match s.data with
  | [] => false
  | d1 :: rest =>
    d1.isDigit && (dashMonth rest ||
      (match rest with
       | d2 :: rest2 => d2.isDigit && dashMonth rest2
       | [] => false))

def fiscalIssue (v : Value) : Bool := !fiscalPat (pyStr v)

/-- Matcher for the suffix `\s*.+` (unanchored): some prefix of whitespace
followed by at least one character other than newline (`.` excludes `\n`;
the regex engine may give back whitespace so that `.` can take it). -/
def tailAfterDash : List Char → Bool
  | [] => false
  | c :: rest => !(c == ('\n')) || (isPySpace c && tailAfterDash rest)

/-- After the four digits: `\s*-\s*.+` (greedy whitespace, then the dash). -/
def dashThenTail : List Char → Bool
  | ('-') :: rest => tailAfterDash rest
  | _ => false

/-- `re.match(r'^\d{4}\s*-\s*.+', s)` succeeds (prefix match, no `$`). -/
def industryPat (s : String) : Bool :=
  match s.data with
  | a :: b :: c :: d :: rest =>
    a.isDigit && b.isDigit && c.isDigit && d.isDigit &&
      dashThenTail (rest.dropWhile isPySpace)
  | _ => false

def industryIssue (v : Value) : Bool := !industryPat (pyStr v)

/-! ## The data frame model -/

structure DataFrame where
  cols : List String
  rows : List (List Value)
deriving DecidableEq, Repr

/-- Index of the first column with the given name. -/
def colIdx : List String → String → Option Nat
  | [], _ => none
  | c₀ :: cs, c => if c₀ = c then some 0 else (colIdx cs c).map (· + 1)

/-- `row[c]` for a row aligned with `cols`. -/
def getVal (cols : List String) (row : List Value) (c : String) : Value :=
  match colIdx cols c with
  | some i => row.getD i Value.null
  | none => Value.null

/-- `df[c] = series`: overwrite the column in place when it exists, append it
at the end otherwise.  The per-row value may depend on the row. -/
def addCol (df : DataFrame) (c : String) (f : List Value → Value) : DataFrame :=
  match colIdx df.cols c with
  | some i => DataFrame.mk df.cols (df.rows.map (fun r => r.set i (f r)))
  | none => DataFrame.mk (df.cols ++ [c]) (df.rows.map (fun r => r ++ [f r]))

/-- Well-formed frame: every row has one value per column. -/
def WF (df : DataFrame) : Prop := ∀ r ∈ df.rows, r.length = df.cols.length

def sFlagPrefix : String := "flag_"
def sFC : String := "flag_completeness"
def sFK : String := "flag_consistency"
def sFV : String := "flag_validity"
def sFU : String := "flag_uniqueness"
def sFO : String := "flag_overall"

/-- The four dimension flag columns, in evaluation order. -/
def flagNames : List String := [sFC, sFK, sFV, sFU]

def listPrefix : List Char → List Char → Bool
  | [], _ => true
  | _ :: _, [] => false
  | a :: as, b :: bs => a == b && listPrefix as bs

/-- `col.startswith('flag_')`. -/
def hasFlagPrefix (c : String) : Bool := listPrefix sFlagPrefix.data c.data

def sTimevalue : String := "timevalue"
def sProviderkey : String := "providerkey"
def sCompanyName : String := "companynameofficial"
def sFiscal : String := "fiscalperiodend"
def sOpStatus : String := "operationstatustype"
def sIpoStatus : String := "ipostatustype"
def sGeo : String := "geonameen"
def sIndustry : String := "industrycode"
def sRevenue : String := "REVENUE"
def sUnitRevenue : String := "unit_REVENUE"

/-- The `critical_columns` list of `check_completeness`. -/
def critical_columns : List String :=
  [sTimevalue, sProviderkey, sCompanyName, sFiscal, sOpStatus, sIpoStatus,
    sGeo, sIndustry, sRevenue, sUnitRevenue]

/-- The `key_columns` list of `check_uniqueness`. -/
def key_columns : List String := [sProviderkey, sTimevalue, sFiscal]

/-! ## The four evaluators -/

/-- Columns actually checked by `check_completeness`: the critical columns
present in the schema, else the first `min(4, len(columns))` columns. -/
def completenessCheckCols (cols : List String) : List String :=
  if critical_columns.filter (fun c => decide (c ∈ cols)) = []
  then cols.take (min 4 cols.length)
  else critical_columns.filter (fun c => decide (c ∈ cols))

/-- Row flag of `check_completeness`: 1 when some checked column is null. -/
def compFlag (cols : List String) (r : List Value) : Int :=
  if (completenessCheckCols cols).any (fun c => !(getVal cols r c).notna) then 1 else 0

def check_completeness (df : DataFrame) : DataFrame :=
  addCol df sFC (fun r => Value.int (compFlag df.cols r))

def subCompany (cols : List String) (r : List Value) : Bool :=
  decide (sCompanyName ∈ cols) && (getVal cols r sCompanyName).notna &&
    companyIssue (getVal cols r sCompanyName)

def subStatus (cols : List String) (r : List Value) : Bool :=
  decide (sOpStatus ∈ cols) && (getVal cols r sOpStatus).notna &&
    statusIssue (getVal cols r sOpStatus)

def subIpo (cols : List String) (r : List Value) : Bool :=
  decide (sIpoStatus ∈ cols) && (getVal cols r sIpoStatus).notna &&
    ipoIssue (getVal cols r sIpoStatus)

def subCurrency (cols : List String) (r : List Value) : Bool :=
  decide (sUnitRevenue ∈ cols) && (getVal cols r sUnitRevenue).notna &&
    currencyIssue (getVal cols r sUnitRevenue)

/-- Row flag of `check_consistency` (the source sets `flag = 1` in any of the
four guarded branches; sequential setting of a single flag is disjunction). -/
def consisFlag (cols : List String) (r : List Value) : Int :=
  if subCompany cols r || subStatus cols r || subIpo cols r || subCurrency cols r
  then 1 else 0

def check_consistency (df : DataFrame) : DataFrame :=
  addCol df sFK (fun r => Value.int (consisFlag df.cols r))

def subTimevalue (cols : List String) (r : List Value) : Bool :=
  decide (sTimevalue ∈ cols) && (getVal cols r sTimevalue).notna &&
    timevalueIssue (getVal cols r sTimevalue)

def subRevenue (cols : List String) (r : List Value) : Bool :=
  decide (sRevenue ∈ cols) && (getVal cols r sRevenue).notna &&
    revenueIssue (getVal cols r sRevenue)

def subFiscal (cols : List String) (r : List Value) : Bool :=
  decide (sFiscal ∈ cols) && (getVal cols r sFiscal).notna &&
    fiscalIssue (getVal cols r sFiscal)

def subIndustry (cols : List String) (r : List Value) : Bool :=
  decide (sIndustry ∈ cols) && (getVal cols r sIndustry).notna &&
    industryIssue (getVal cols r sIndustry)

/-- Row flag of `check_validity`. -/
def validFlag (cols : List String) (r : List Value) : Int :=
  if subTimevalue cols r || subRevenue cols r || subFiscal cols r || subIndustry cols r
  then 1 else 0

def check_validity (df : DataFrame) : DataFrame :=
  addCol df sFV (fun r => Value.int (validFlag df.cols r))

/-- Key columns of `check_uniqueness`: the key columns present in the schema,
else every non-flag column. -/
def keyColsOf (cols : List String) : List String :=
  if key_columns.filter (fun c => decide (c ∈ cols)) = []
  then cols.filter (fun c => !hasFlagPrefix c)
  else key_columns.filter (fun c => decide (c ∈ cols))

/-- Key tuple of a row (pandas `duplicated` treats nulls as equal, as does
equality on `Value`). -/
def keyProj (cols : List String) (r : List Value) : List Value :=
  (keyColsOf cols).map (getVal cols r)

/-- Row flag of `check_uniqueness`: `duplicated(subset=keys, keep=False)` —
1 exactly when the row's key tuple occurs at least twice in the frame. -/
def uniqFlag (cols : List String) (rows : List (List Value)) (r : List Value) : Int :=
  if 2 ≤ rows.countP (fun r2 => decide (keyProj cols r2 = keyProj cols r)) then 1 else 0

def check_uniqueness (df : DataFrame) : DataFrame :=
  addCol df sFU (fun r => Value.int (uniqFlag df.cols df.rows r))

/-! ## Aggregator and summary -/

/-- The four evaluators in source order (`run_all_checks` before the overall
flag is added). -/
def four_checks (df : DataFrame) : DataFrame :=
  check_uniqueness (check_validity (check_consistency (check_completeness df)))

/-- Numeric reading of a flag cell (flag columns written by the checks hold
integers). -/
def valInt : Value → Int
  | Value.int n => n
  | _ => 0

/-- `df[flag_columns].max(axis=1)` for one row: maximum over every column
whose name starts with `flag_`. -/
def rowMaxFlags (cols : List String) (r : List Value) : Value :=
  match (cols.filter hasFlagPrefix).map (fun c => valInt (getVal cols r c)) with
  | [] => Value.null
  | x :: xs => Value.int (xs.foldl max x)

/-- `run_all_checks`: the four evaluators, then `flag_overall`. -/
def run_all_checks (df : DataFrame) : DataFrame :=
  let d := four_checks df
  addCol d sFO (fun r => rowMaxFlags d.cols r)

/-- Issue count of `check_consistency` (`sum(consistency_flags)`). -/
def consisCount (df : DataFrame) : Nat :=
  df.rows.countP (fun r => decide (consisFlag df.cols r = 1))

/-- The `percentage` field written by `check_consistency`:
`float(issues_count / len(df) * 100)` where `issues_count` is a Python `int`,
so a zero-row frame raises `ZeroDivisionError` (modeled by `error`). -/
def consistency_percentage (df : DataFrame) : Except Unit ℚ :=
  if df.rows.length = 0 then Except.error ()
  else Except.ok (((consisCount df : ℚ) / (df.rows.length : ℚ)) * 100)

/-- The four `total_issues` entries of `quality_issues` after a full run, in
the order the evaluators record them (each count is taken over the frame the
evaluator actually received). -/
def quality_totals (df : DataFrame) : List Nat :=
  let d1 := check_completeness df
  let d2 := check_consistency d1
  let d3 := check_validity d2
  [df.rows.countP (fun r => decide (compFlag df.cols r = 1)),
   d1.rows.countP (fun r => decide (consisFlag d1.cols r = 1)),
   d2.rows.countP (fun r => decide (validFlag d2.cols r = 1)),
   d3.rows.countP (fun r => decide (uniqFlag d3.cols d3.rows r = 1))]

/-- `generate_quality_summary`'s `overall_quality_score` after all four checks
ran: `max(0, 100 - total_issues / (len(df) * 4) * 100)`, guarded by
`total_possible_issues > 0` (otherwise the initial 0 is kept).  Row count is
unchanged by the checks, so `len(df)` is the input row count. -/
def overall_quality_score (df : DataFrame) : ℚ :=
  let totals := quality_totals df
  let total : Nat := totals.sum
  let possible : Nat := df.rows.length * totals.length
  if 0 < possible then max 0 (100 - ((total : ℚ) / (possible : ℚ)) * 100) else 0



/-! ## Derived definitions used to state and prove the claims -/

/-- The values of one named column, top to bottom. -/
def colValues (df : DataFrame) (c : String) : List Value :=
  df.rows.map (fun r => getVal df.cols r c)

/-- Closed form of the four flag cells appended to a row by a run of the four
evaluators on a frame with no pre-existing `flag_` column. -/
def flagValsOf (cols : List String) (rows : List (List Value)) (r : List Value) : List Value :=
  [Value.int (compFlag cols r), Value.int (consisFlag cols r),
   Value.int (validFlag cols r), Value.int (uniqFlag cols rows r)]

/-- Closed form of the `flag_overall` cell on such a frame: the maximum of the
four dimension flags. -/
def overallOf (cols : List String) (rows : List (List Value)) (r : List Value) : Value :=
  Value.int (max (max (max (compFlag cols r) (consisFlag cols r)) (validFlag cols r))
    (uniqFlag cols rows r))

def sFlagX : String := "flag_x"
def sX : String := "x"

/-- A one-row frame whose schema already carries a foreign `flag_x` column. -/
def cexFlagExtra : DataFrame :=
  DataFrame.mk [sTimevalue, sFlagX] [[Value.int 2019, Value.int 1]]

/-- Like `cexFlagExtra` but with a non-binary value in the foreign column. -/
def cexFlagSeven : DataFrame :=
  DataFrame.mk [sTimevalue, sFlagX] [[Value.int 2019, Value.int 7]]

/-- A frame whose first schema column is literally named `flag_completeness`
and holds a null — the completeness fallback then reads it. -/
def cexFlagNamed : DataFrame :=
  DataFrame.mk [sFC, sX] [[Value.null, Value.int 7]]

/-- A frame that already carries a (stale) `flag_completeness` column. -/
def cexStaleFlag : DataFrame :=
  DataFrame.mk [sTimevalue, sFC] [[Value.int 2019, Value.int 5]]

/-- A clean one-row, one-column frame (used as witness input). -/
def wClean : DataFrame := DataFrame.mk [sTimevalue] [[Value.int 2019]]

/-- A two-row frame with duplicated key tuples. -/
def wDup : DataFrame := DataFrame.mk [sProviderkey] [[Value.int 1], [Value.int 1]]

/-- A frame with a null critical value. -/
def wNull : DataFrame := DataFrame.mk [sTimevalue] [[Value.null]]

/-- A zero-row frame (the schema exists, the data is empty). -/
def wEmpty : DataFrame := DataFrame.mk [sCompanyName] []

/-! ## Basic lemmas about the frame model -/

theorem colIdx_eq_none {cols : List String} {c : String} :
    colIdx cols c = none ↔ c ∉ cols := by
  induction cols with
  | nil => simp [colIdx]
  | cons c₀ cs ih =>
    by_cases h : c₀ = c
    · simp [colIdx, h]
    · simp only [colIdx, if_neg h, Option.map_eq_none', ih, List.mem_cons, not_or]
      exact ⟨fun h2 => ⟨fun hc => h hc.symm, h2⟩, fun h2 => h2.2⟩

theorem colIdx_lt {cols : List String} {c : String} {i : Nat}
    (h : colIdx cols c = some i) : i < cols.length := by
  induction cols generalizing i with
  | nil => simp [colIdx] at h
  | cons c₀ cs ih =>
    by_cases h0 : c₀ = c
    · simp [colIdx, h0] at h
      simp only [List.length_cons]
      omega
    · cases hcs : colIdx cs c with
      | none => simp [colIdx, h0, hcs] at h
      | some j =>
        simp [colIdx, h0, hcs] at h
        have := ih hcs
        simp only [List.length_cons]
        omega

theorem colIdx_append_left {cols : List String} {c : String} (ext : List String)
    (h : c ∈ cols) : colIdx (cols ++ ext) c = colIdx cols c := by
  induction cols with
  | nil => simp at h
  | cons c₀ cs ih =>
    by_cases h0 : c₀ = c
    · simp [colIdx, h0]
    · have hc : c ∈ cs := by
        rcases List.mem_cons.mp h with h1 | h1
        · exact absurd h1.symm h0
        · exact h1
      simp [colIdx, h0, ih hc]

theorem colIdx_append_right_some {cols ext : List String} {c : String} {j : Nat}
    (h : c ∉ cols) (hj : colIdx ext c = some j) :
    colIdx (cols ++ ext) c = some (cols.length + j) := by
  induction cols with
  | nil => simpa using hj
  | cons c₀ cs ih =>
    have h0 : ¬ c₀ = c := fun he => h (by simp [he])
    have ihc := ih (fun hc => h (by simp [hc]))
    rw [List.cons_append]
    simp [colIdx, h0, ihc]
    omega

theorem own_getD_append_left {α : Type} (l l' : List α) (d : α) (i : Nat)
    (h : i < l.length) : (l ++ l').getD i d = l.getD i d := by
  induction l generalizing i with
  | nil => simp at h
  | cons a as ih =>
    cases i with
    | zero => rfl
    | succ j =>
      have : j < as.length := by simpa using h
      simpa using ih j this

theorem own_getD_append_right {α : Type} (l l' : List α) (d : α) (j : Nat) :
    (l ++ l').getD (l.length + j) d = l'.getD j d := by
  induction l with
  | nil => simp
  | cons a as ih =>
    have : as.length + 1 + j = (as.length + j) + 1 := by omega
    simp only [List.cons_append, List.length_cons, this]
    simpa using ih

theorem own_set_append {α : Type} (l l' : List α) (j : Nat) (v : α) :
    (l ++ l').set (l.length + j) v = l ++ l'.set j v := by
  induction l with
  | nil => simp
  | cons a as ih =>
    have : as.length + 1 + j = (as.length + j) + 1 := by omega
    simp only [List.cons_append, List.length_cons, this, List.set_cons_succ]
    rw [ih]

theorem own_map_congr {α β : Type} {l : List α} {f g : α → β}
    (h : ∀ a ∈ l, f a = g a) : l.map f = l.map g := by
  induction l with
  | nil => rfl
  | cons a as ih =>
    simp only [List.map_cons, h a (List.mem_cons_self a as)]
    rw [ih (fun x hx => h x (List.mem_cons_of_mem a hx))]

theorem own_filter_congr {α : Type} {l : List α} {p q : α → Bool}
    (h : ∀ a ∈ l, p a = q a) : l.filter p = l.filter q := by
  induction l with
  | nil => rfl
  | cons a as ih =>
    have ha := h a (List.mem_cons_self a as)
    have ihs := ih (fun x hx => h x (List.mem_cons_of_mem a hx))
    cases hq : q a <;> simp [List.filter_cons, ha, hq, ihs]

theorem own_countP_congr {α : Type} {l : List α} {p q : α → Bool}
    (h : ∀ a ∈ l, p a = q a) : l.countP p = l.countP q := by
  induction l with
  | nil => rfl
  | cons a as ih =>
    have ha := h a (List.mem_cons_self a as)
    have ihs := ih (fun x hx => h x (List.mem_cons_of_mem a hx))
    simp [List.countP_cons, ha, ihs]

theorem own_any_congr {α : Type} {l : List α} {p q : α → Bool}
    (h : ∀ a ∈ l, p a = q a) : l.any p = l.any q := by
  induction l with
  | nil => rfl
  | cons a as ih =>
    have ha := h a (List.mem_cons_self a as)
    have ihs := ih (fun x hx => h x (List.mem_cons_of_mem a hx))
    simp [List.any_cons, ha, ihs]

theorem getVal_not_mem {cols : List String} {r : List Value} {c : String}
    (h : c ∉ cols) : getVal cols r c = Value.null := by
  simp [getVal, colIdx_eq_none.mpr h]

theorem getVal_append {cols ext : List String} {r w : List Value} {c : String}
    (hr : r.length = cols.length) (h : c ∈ cols) :
    getVal (cols ++ ext) (r ++ w) c = getVal cols r c := by
  unfold getVal
  rw [colIdx_append_left ext h]
  cases hc : colIdx cols c with
  | none => rfl
  | some i =>
    have hi : i < cols.length := colIdx_lt hc
    exact own_getD_append_left r w Value.null i (by omega)

theorem getVal_ext {cols ext : List String} {r w : List Value} {c : String}
    (hr : r.length = cols.length) (hc : c ∉ ext) :
    getVal (cols ++ ext) (r ++ w) c = getVal cols r c := by
  by_cases h : c ∈ cols
  · exact getVal_append hr h
  · rw [getVal_not_mem h, getVal_not_mem (by simp [List.mem_append, h, hc])]

theorem getVal_append_right {cols ext : List String} {r w : List Value}
    {c : String} {j : Nat} (hr : r.length = cols.length) (hc : c ∉ cols)
    (hj : colIdx ext c = some j) :
    getVal (cols ++ ext) (r ++ w) c = w.getD j Value.null := by
  unfold getVal
  rw [colIdx_append_right_some hc hj, ← hr]
  exact own_getD_append_right r w Value.null j

theorem decide_mem_append {cols ext : List String} {c : String} (hc : c ∉ ext) :
    decide (c ∈ cols ++ ext) = decide (c ∈ cols) :=
  decide_eq_decide.mpr (by simp [List.mem_append, hc])

theorem flag_not_mem {cols : List String}
    (hnf : ∀ c ∈ cols, hasFlagPrefix c = false) {c : String}
    (hc : hasFlagPrefix c = true) : c ∉ cols :=
  fun h => by simp [hnf c h] at hc

theorem critical_not_flag : ∀ c ∈ critical_columns, c ∉ flagNames := by decide

theorem key_not_flag : ∀ c ∈ key_columns, c ∉ flagNames := by decide

theorem flagNames_prefixed : ∀ c ∈ flagNames, hasFlagPrefix c = true := by decide

theorem notna_false_iff {v : Value} : v.notna = false ↔ v = Value.null := by
  cases v <;> simp [Value.notna]

theorem own_getD_mem {α : Type} {l : List α} {j : Nat} (d : α) (h : j < l.length) :
    l.getD j d ∈ l := by
  induction l generalizing j with
  | nil => simp at h
  | cons a as ih =>
    cases j with
    | zero => simp
    | succ i =>
      have hi : i < as.length := by simpa using h
      simpa using Or.inr (ih hi)

/-! ## Stability of the row flags under appended flag columns

Each evaluator receives the frame extended by the flag columns the previous
evaluators appended.  The following lemmas show that the row flags only depend
on the original columns, provided the original schema has no `flag_`-prefixed
name and the appended columns are flag columns holding non-null values. -/

theorem compFlag_ext {cols ext : List String} {r w : List Value}
    (hr : r.length = cols.length) (hw : ext.length ≤ w.length)
    (HE : ∀ c ∈ ext, c ∈ flagNames)
    (hnf : ∀ c ∈ cols, hasFlagPrefix c = false)
    (hwv : ∀ v ∈ w, v.notna = true) :
    compFlag (cols ++ ext) (r ++ w) = compFlag cols r := by
  have hext_flag : ∀ c ∈ ext, hasFlagPrefix c = true :=
    fun c hc => flagNames_prefixed c (HE c hc)
  have hcne : ∀ c ∈ cols, c ∉ ext := by
    intro c hc hce
    have h1 := hnf c hc
    have h2 := hext_flag c hce
    simp [h1] at h2
  have hfilter : critical_columns.filter (fun c => decide (c ∈ cols ++ ext)) =
      critical_columns.filter (fun c => decide (c ∈ cols)) :=
    own_filter_congr (fun a ha =>
      decide_mem_append (fun hae => critical_not_flag a ha (HE a hae)))
  have hextval : ∀ c ∈ ext, (!(getVal (cols ++ ext) (r ++ w) c).notna) = false := by
    intro c hc
    have hcn : c ∉ cols := flag_not_mem hnf (hext_flag c hc)
    cases hj : colIdx ext c with
    | none => exact absurd hc (colIdx_eq_none.mp hj)
    | some j =>
      have hjl : j < ext.length := colIdx_lt hj
      rw [getVal_append_right hr hcn hj]
      have hmem : w.getD j Value.null ∈ w := own_getD_mem Value.null (by omega)
      rw [hwv _ hmem]
      rfl
  unfold compFlag completenessCheckCols
  rw [hfilter]
  by_cases hcase : critical_columns.filter (fun c => decide (c ∈ cols)) = []
  · rw [if_pos hcase, if_pos hcase]
    have htake : (cols ++ ext).take (min 4 (cols ++ ext).length) =
        cols.take (min 4 cols.length) ++
          ext.take (min 4 (cols ++ ext).length - cols.length) := by
      rw [List.take_append_eq_append_take]
      congr 1
      apply List.take_eq_take.mpr
      simp only [List.length_append]
      omega
    rw [htake, List.any_append]
    have h1 : (cols.take (min 4 cols.length)).any
        (fun c => !(getVal (cols ++ ext) (r ++ w) c).notna) =
        (cols.take (min 4 cols.length)).any (fun c => !(getVal cols r c).notna) := by
      apply own_any_congr
      intro c hc
      have hcc : c ∈ cols := List.take_subset _ _ hc
      rw [getVal_ext hr (hcne c hcc)]
    have h2 : (ext.take (min 4 (cols ++ ext).length - cols.length)).any
        (fun c => !(getVal (cols ++ ext) (r ++ w) c).notna) = false := by
      rw [List.any_eq_false]
      intro c hc
      simp only [Bool.not_eq_true]
      have := hextval c (List.take_subset _ _ hc)
      simpa using this
    rw [h1, h2, Bool.or_false]
  · rw [if_neg hcase, if_neg hcase]
    have harg : (critical_columns.filter (fun c => decide (c ∈ cols))).any
        (fun c => !(getVal (cols ++ ext) (r ++ w) c).notna) =
        (critical_columns.filter (fun c => decide (c ∈ cols))).any
          (fun c => !(getVal cols r c).notna) := by
      apply own_any_congr
      intro c hcmem
      have h1 := List.mem_filter.mp hcmem
      have hcrit : c ∈ critical_columns := h1.1
      have hcex : c ∉ ext := fun hce => critical_not_flag c hcrit (HE c hce)
      rw [getVal_ext hr hcex]
    rw [harg]

theorem consisFlag_ext {cols ext : List String} {r w : List Value}
    (hr : r.length = cols.length) (HE : ∀ c ∈ ext, c ∈ flagNames) :
    consisFlag (cols ++ ext) (r ++ w) = consisFlag cols r := by
  have hA : sCompanyName ∉ ext := fun h => critical_not_flag _ (by decide) (HE _ h)
  have hB : sOpStatus ∉ ext := fun h => critical_not_flag _ (by decide) (HE _ h)
  have hC : sIpoStatus ∉ ext := fun h => critical_not_flag _ (by decide) (HE _ h)
  have hD : sUnitRevenue ∉ ext := fun h => critical_not_flag _ (by decide) (HE _ h)
  unfold consisFlag subCompany subStatus subIpo subCurrency
  rw [decide_mem_append hA, decide_mem_append hB, decide_mem_append hC,
      decide_mem_append hD, getVal_ext hr hA, getVal_ext hr hB, getVal_ext hr hC,
      getVal_ext hr hD]

theorem validFlag_ext {cols ext : List String} {r w : List Value}
    (hr : r.length = cols.length) (HE : ∀ c ∈ ext, c ∈ flagNames) :
    validFlag (cols ++ ext) (r ++ w) = validFlag cols r := by
  have hA : sTimevalue ∉ ext := fun h => critical_not_flag _ (by decide) (HE _ h)
  have hB : sRevenue ∉ ext := fun h => critical_not_flag _ (by decide) (HE _ h)
  have hC : sFiscal ∉ ext := fun h => critical_not_flag _ (by decide) (HE _ h)
  have hD : sIndustry ∉ ext := fun h => critical_not_flag _ (by decide) (HE _ h)
  unfold validFlag subTimevalue subRevenue subFiscal subIndustry
  rw [decide_mem_append hA, decide_mem_append hB, decide_mem_append hC,
      decide_mem_append hD, getVal_ext hr hA, getVal_ext hr hB, getVal_ext hr hC,
      getVal_ext hr hD]

theorem keyColsOf_ext {cols ext : List String} (HE : ∀ c ∈ ext, c ∈ flagNames) :
    keyColsOf (cols ++ ext) = keyColsOf cols := by
  have hfilter : key_columns.filter (fun c => decide (c ∈ cols ++ ext)) =
      key_columns.filter (fun c => decide (c ∈ cols)) :=
    own_filter_congr (fun a ha =>
      decide_mem_append (fun hae => key_not_flag a ha (HE a hae)))
  have hext : ext.filter (fun c => !hasFlagPrefix c) = [] := by
    rw [List.filter_eq_nil_iff]
    intro a ha
    simp [flagNames_prefixed a (HE a ha)]
  unfold keyColsOf
  rw [hfilter, List.filter_append, hext, List.append_nil]

theorem keyColsOf_not_mem_ext {cols ext : List String}
    (HE : ∀ c ∈ ext, c ∈ flagNames) : ∀ c ∈ keyColsOf cols, c ∉ ext := by
  intro c hc hce
  have hcf : c ∈ flagNames := HE c hce
  have hpref : hasFlagPrefix c = true := flagNames_prefixed c hcf
  unfold keyColsOf at hc
  split at hc
  · have h1 := List.mem_filter.mp hc
    simp [hpref] at h1
  · have h1 := List.mem_filter.mp hc
    exact key_not_flag c h1.1 hcf

theorem keyProj_ext {cols ext : List String} {r w : List Value}
    (hr : r.length = cols.length) (HE : ∀ c ∈ ext, c ∈ flagNames) :
    keyProj (cols ++ ext) (r ++ w) = keyProj cols r := by
  unfold keyProj
  rw [keyColsOf_ext HE]
  exact own_map_congr (fun c hc => getVal_ext hr (keyColsOf_not_mem_ext HE c hc))

theorem uniqFlag_ext {cols ext : List String} {rows : List (List Value)}
    {r w : List Value} {g : List Value → List Value}
    (hg : ∀ r2 ∈ rows, keyProj (cols ++ ext) (g r2) = keyProj cols r2)
    (hr : r.length = cols.length) (HE : ∀ c ∈ ext, c ∈ flagNames) :
    uniqFlag (cols ++ ext) (rows.map g) (r ++ w) = uniqFlag cols rows r := by
  unfold uniqFlag
  rw [keyProj_ext hr HE, List.countP_map]
  have hcong : List.countP
      ((fun r2 => decide (keyProj (cols ++ ext) r2 = keyProj cols r)) ∘ g) rows =
      List.countP (fun r2 => decide (keyProj cols r2 = keyProj cols r)) rows := by
    apply own_countP_congr
    intro r2 h2
    simp only [Function.comp_apply]
    rw [hg r2 h2]
  rw [hcong]

/-! ## Closed form of a run of the four evaluators

On a frame whose schema has no `flag_`-prefixed column, each evaluator appends
its flag column at the end, and every flag cell is determined by the original
columns. -/

theorem addCol_not_mem {df : DataFrame} {c : String} {f : List Value → Value}
    (h : c ∉ df.cols) :
    addCol df c f = DataFrame.mk (df.cols ++ [c]) (df.rows.map (fun r => r ++ [f r])) := by
  unfold addCol
  rw [colIdx_eq_none.mpr h]

theorem addCol_mem {df : DataFrame} {c : String} {f : List Value → Value} {i : Nat}
    (h : colIdx df.cols c = some i) :
    addCol df c f = DataFrame.mk df.cols (df.rows.map (fun r => r.set i (f r))) := by
  unfold addCol
  rw [h]

theorem stage_completeness (cols : List String) (rows : List (List Value))
    (hFC : sFC ∉ cols) :
    check_completeness (DataFrame.mk cols rows) =
      DataFrame.mk (cols ++ [sFC])
        (rows.map (fun r => r ++ [Value.int (compFlag cols r)])) := by
  unfold check_completeness
  exact addCol_not_mem hFC

theorem stage_consistency (cols : List String) (rows : List (List Value))
    (hwf : ∀ r ∈ rows, r.length = cols.length) (hFK : sFK ∉ cols) :
    check_consistency (DataFrame.mk (cols ++ [sFC])
        (rows.map (fun r => r ++ [Value.int (compFlag cols r)]))) =
      DataFrame.mk (cols ++ [sFC, sFK])
        (rows.map (fun r =>
          r ++ [Value.int (compFlag cols r), Value.int (consisFlag cols r)])) := by
  unfold check_consistency
  have hmem : sFK ∉ cols ++ [sFC] := by
    intro h
    rcases List.mem_append.mp h with h1 | h1
    · exact hFK h1
    · simp at h1
      exact absurd h1 (by decide)
  rw [addCol_not_mem hmem]
  congr 1
  · simp [List.append_assoc]
  · rw [List.map_map]
    apply own_map_congr
    intro r hr
    simp only [Function.comp_apply]
    rw [consisFlag_ext (hwf r hr) (by decide)]
    simp [List.append_assoc]

theorem stage_validity (cols : List String) (rows : List (List Value))
    (hwf : ∀ r ∈ rows, r.length = cols.length) (hFV : sFV ∉ cols) :
    check_validity (DataFrame.mk (cols ++ [sFC, sFK])
        (rows.map (fun r =>
          r ++ [Value.int (compFlag cols r), Value.int (consisFlag cols r)]))) =
      DataFrame.mk (cols ++ [sFC, sFK, sFV])
        (rows.map (fun r =>
          r ++ [Value.int (compFlag cols r), Value.int (consisFlag cols r),
            Value.int (validFlag cols r)])) := by
  unfold check_validity
  have hmem : sFV ∉ cols ++ [sFC, sFK] := by
    intro h
    rcases List.mem_append.mp h with h1 | h1
    · exact hFV h1
    · simp at h1
      rcases h1 with h1 | h1
      · exact absurd h1 (by decide)
      · exact absurd h1 (by decide)
  rw [addCol_not_mem hmem]
  congr 1
  · simp [List.append_assoc]
  · rw [List.map_map]
    apply own_map_congr
    intro r hr
    simp only [Function.comp_apply]
    rw [validFlag_ext (hwf r hr) (by decide)]
    simp [List.append_assoc]

theorem stage_uniqueness (cols : List String) (rows : List (List Value))
    (hwf : ∀ r ∈ rows, r.length = cols.length) (hFU : sFU ∉ cols) :
    check_uniqueness (DataFrame.mk (cols ++ [sFC, sFK, sFV])
        (rows.map (fun r =>
          r ++ [Value.int (compFlag cols r), Value.int (consisFlag cols r),
            Value.int (validFlag cols r)]))) =
      DataFrame.mk (cols ++ flagNames)
        (rows.map (fun r => r ++ flagValsOf cols rows r)) := by
  unfold check_uniqueness
  have hmem : sFU ∉ cols ++ [sFC, sFK, sFV] := by
    intro h
    rcases List.mem_append.mp h with h1 | h1
    · exact hFU h1
    · simp at h1
      rcases h1 with h1 | h1 | h1
      · exact absurd h1 (by decide)
      · exact absurd h1 (by decide)
      · exact absurd h1 (by decide)
  rw [addCol_not_mem hmem]
  congr 1
  · simp [flagNames, List.append_assoc]
  · rw [List.map_map]
    apply own_map_congr
    intro r hr
    simp only [Function.comp_apply]
    have hg : ∀ r2 ∈ rows,
        keyProj (cols ++ [sFC, sFK, sFV])
          (r2 ++ [Value.int (compFlag cols r2), Value.int (consisFlag cols r2),
            Value.int (validFlag cols r2)]) = keyProj cols r2 :=
      fun r2 h2 => keyProj_ext (hwf r2 h2) (by decide)
    rw [uniqFlag_ext hg (hwf r hr) (by decide)]
    simp [flagValsOf, List.append_assoc]

theorem four_checks_closed (df : DataFrame) (hwf : WF df)
    (hnf : ∀ c ∈ df.cols, hasFlagPrefix c = false) :
    four_checks df = DataFrame.mk (df.cols ++ flagNames)
      (df.rows.map (fun r => r ++ flagValsOf df.cols df.rows r)) := by
  obtain ⟨cols, rows⟩ := df
  have hwf2 : ∀ r ∈ rows, r.length = cols.length := hwf
  have hFC : sFC ∉ cols := flag_not_mem hnf (by decide)
  have hFK : sFK ∉ cols := flag_not_mem hnf (by decide)
  have hFV : sFV ∉ cols := flag_not_mem hnf (by decide)
  have hFU : sFU ∉ cols := flag_not_mem hnf (by decide)
  unfold four_checks
  rw [stage_completeness cols rows hFC, stage_consistency cols rows hwf2 hFK,
    stage_validity cols rows hwf2 hFV, stage_uniqueness cols rows hwf2 hFU]

theorem flagValsOf_notna (cols : List String) (rows : List (List Value))
    (r : List Value) : ∀ v ∈ flagValsOf cols rows r, v.notna = true := by
  intro v hv
  simp only [flagValsOf, List.mem_cons, List.not_mem_nil, or_false] at hv
  rcases hv with rfl | rfl | rfl | rfl <;> rfl

/-! ## A second run overwrites each flag column with the same values

On the closed-form frame each evaluator finds its flag column already present
and overwrites it in place with an identical value. -/

theorem fix_completeness (cols : List String) (rows : List (List Value))
    (hwf : ∀ r ∈ rows, r.length = cols.length)
    (hnf : ∀ c ∈ cols, hasFlagPrefix c = false) :
    check_completeness (DataFrame.mk (cols ++ flagNames)
        (rows.map (fun r => r ++ flagValsOf cols rows r))) =
      DataFrame.mk (cols ++ flagNames)
        (rows.map (fun r => r ++ flagValsOf cols rows r)) := by
  unfold check_completeness
  have hidx : colIdx (cols ++ flagNames) sFC = some (cols.length + 0) :=
    colIdx_append_right_some (flag_not_mem hnf (by decide)) (by decide)
  rw [addCol_mem hidx]
  congr 1
  rw [List.map_map]
  apply own_map_congr
  intro r hr
  simp only [Function.comp_apply]
  rw [compFlag_ext (hwf r hr) (le_refl 4) (fun _ hc => hc) hnf
    (flagValsOf_notna cols rows r)]
  rw [← hwf r hr, own_set_append]
  simp [flagValsOf]

theorem fix_consistency (cols : List String) (rows : List (List Value))
    (hwf : ∀ r ∈ rows, r.length = cols.length)
    (hnf : ∀ c ∈ cols, hasFlagPrefix c = false) :
    check_consistency (DataFrame.mk (cols ++ flagNames)
        (rows.map (fun r => r ++ flagValsOf cols rows r))) =
      DataFrame.mk (cols ++ flagNames)
        (rows.map (fun r => r ++ flagValsOf cols rows r)) := by
  unfold check_consistency
  have hidx : colIdx (cols ++ flagNames) sFK = some (cols.length + 1) :=
    colIdx_append_right_some (flag_not_mem hnf (by decide)) (by decide)
  rw [addCol_mem hidx]
  congr 1
  rw [List.map_map]
  apply own_map_congr
  intro r hr
  simp only [Function.comp_apply]
  rw [consisFlag_ext (hwf r hr) (fun _ hc => hc)]
  rw [← hwf r hr, own_set_append]
  simp [flagValsOf]

theorem fix_validity (cols : List String) (rows : List (List Value))
    (hwf : ∀ r ∈ rows, r.length = cols.length)
    (hnf : ∀ c ∈ cols, hasFlagPrefix c = false) :
    check_validity (DataFrame.mk (cols ++ flagNames)
        (rows.map (fun r => r ++ flagValsOf cols rows r))) =
      DataFrame.mk (cols ++ flagNames)
        (rows.map (fun r => r ++ flagValsOf cols rows r)) := by
  unfold check_validity
  have hidx : colIdx (cols ++ flagNames) sFV = some (cols.length + 2) :=
    colIdx_append_right_some (flag_not_mem hnf (by decide)) (by decide)
  rw [addCol_mem hidx]
  congr 1
  rw [List.map_map]
  apply own_map_congr
  intro r hr
  simp only [Function.comp_apply]
  rw [validFlag_ext (hwf r hr) (fun _ hc => hc)]
  rw [← hwf r hr, own_set_append]
  simp [flagValsOf]

theorem fix_uniqueness (cols : List String) (rows : List (List Value))
    (hwf : ∀ r ∈ rows, r.length = cols.length)
    (hnf : ∀ c ∈ cols, hasFlagPrefix c = false) :
    check_uniqueness (DataFrame.mk (cols ++ flagNames)
        (rows.map (fun r => r ++ flagValsOf cols rows r))) =
      DataFrame.mk (cols ++ flagNames)
        (rows.map (fun r => r ++ flagValsOf cols rows r)) := by
  unfold check_uniqueness
  have hidx : colIdx (cols ++ flagNames) sFU = some (cols.length + 3) :=
    colIdx_append_right_some (flag_not_mem hnf (by decide)) (by decide)
  rw [addCol_mem hidx]
  congr 1
  rw [List.map_map]
  apply own_map_congr
  intro r hr
  simp only [Function.comp_apply]
  have hg : ∀ r2 ∈ rows,
      keyProj (cols ++ flagNames) (r2 ++ flagValsOf cols rows r2) = keyProj cols r2 :=
    fun r2 h2 => keyProj_ext (hwf r2 h2) (fun _ hc => hc)
  rw [uniqFlag_ext hg (hwf r hr) (fun _ hc => hc)]
  rw [← hwf r hr, own_set_append]
  simp [flagValsOf]

theorem run_all_checks_closed (df : DataFrame) (hwf : WF df)
    (hnf : ∀ c ∈ df.cols, hasFlagPrefix c = false) :
    run_all_checks df = DataFrame.mk ((df.cols ++ flagNames) ++ [sFO])
      (df.rows.map (fun r =>
        (r ++ flagValsOf df.cols df.rows r) ++ [overallOf df.cols df.rows r])) := by
  obtain ⟨cols, rows⟩ := df
  have hwf2 : ∀ r ∈ rows, r.length = cols.length := hwf
  unfold run_all_checks
  rw [four_checks_closed _ hwf hnf]
  have hFO : sFO ∉ cols ++ flagNames := by
    intro h
    rcases List.mem_append.mp h with h1 | h1
    · exact flag_not_mem hnf (by decide) h1
    · exact absurd h1 (by decide)
  rw [addCol_not_mem hFO]
  congr 1
  rw [List.map_map]
  apply own_map_congr
  intro r hr
  simp only [Function.comp_apply]
  have hfcols : (cols ++ flagNames).filter hasFlagPrefix = flagNames := by
    rw [List.filter_append]
    have h1 : cols.filter hasFlagPrefix = [] := by
      rw [List.filter_eq_nil_iff]
      intro a ha
      simp [hnf a ha]
    have h2 : flagNames.filter hasFlagPrefix = flagNames := by decide
    rw [h1, h2, List.nil_append]
  have g1 : getVal (cols ++ flagNames) (r ++ flagValsOf cols rows r) sFC =
      Value.int (compFlag cols r) := by
    rw [getVal_append_right (hwf2 r hr) (flag_not_mem hnf (by decide))
      (by decide : colIdx flagNames sFC = some 0)]
    rfl
  have g2 : getVal (cols ++ flagNames) (r ++ flagValsOf cols rows r) sFK =
      Value.int (consisFlag cols r) := by
    rw [getVal_append_right (hwf2 r hr) (flag_not_mem hnf (by decide))
      (by decide : colIdx flagNames sFK = some 1)]
    rfl
  have g3 : getVal (cols ++ flagNames) (r ++ flagValsOf cols rows r) sFV =
      Value.int (validFlag cols r) := by
    rw [getVal_append_right (hwf2 r hr) (flag_not_mem hnf (by decide))
      (by decide : colIdx flagNames sFV = some 2)]
    rfl
  have g4 : getVal (cols ++ flagNames) (r ++ flagValsOf cols rows r) sFU =
      Value.int (uniqFlag cols rows r) := by
    rw [getVal_append_right (hwf2 r hr) (flag_not_mem hnf (by decide))
      (by decide : colIdx flagNames sFU = some 3)]
    rfl
  unfold rowMaxFlags
  rw [hfcols]
  have hmap : flagNames.map (fun c =>
      valInt (getVal (cols ++ flagNames) (r ++ flagValsOf cols rows r) c)) =
      [valInt (getVal (cols ++ flagNames) (r ++ flagValsOf cols rows r) sFC),
       valInt (getVal (cols ++ flagNames) (r ++ flagValsOf cols rows r) sFK),
       valInt (getVal (cols ++ flagNames) (r ++ flagValsOf cols rows r) sFV),
       valInt (getVal (cols ++ flagNames) (r ++ flagValsOf cols rows r) sFU)] := rfl
  rw [hmap, g1, g2, g3, g4]
  rfl

/-! ## Small helpers for the claim theorems -/

theorem own_ite_flag_eq_one {b : Bool} :
    ((if b = true then (1 : Int) else 0) = 1) ↔ b = true := by
  cases b <;> simp

theorem own_ite_prop_eq_one {P : Prop} [Decidable P] :
    ((if P then (1 : Int) else 0) = 1) ↔ P := by
  split
  · simp [*]
  · simp [*]

theorem compFlag01 (cols : List String) (r : List Value) :
    compFlag cols r = 0 ∨ compFlag cols r = 1 := by
  unfold compFlag
  split
  · exact Or.inr rfl
  · exact Or.inl rfl

theorem consisFlag01 (cols : List String) (r : List Value) :
    consisFlag cols r = 0 ∨ consisFlag cols r = 1 := by
  unfold consisFlag
  split
  · exact Or.inr rfl
  · exact Or.inl rfl

theorem validFlag01 (cols : List String) (r : List Value) :
    validFlag cols r = 0 ∨ validFlag cols r = 1 := by
  unfold validFlag
  split
  · exact Or.inr rfl
  · exact Or.inl rfl

theorem uniqFlag01 (cols : List String) (rows : List (List Value)) (r : List Value) :
    uniqFlag cols rows r = 0 ∨ uniqFlag cols rows r = 1 := by
  unfold uniqFlag
  split
  · exact Or.inr rfl
  · exact Or.inl rfl

theorem max01 {a b : Int} (ha : a = 0 ∨ a = 1) (hb : b = 0 ∨ b = 1) :
    max a b = 0 ∨ max a b = 1 := by
  rcases ha with rfl | rfl <;> rcases hb with rfl | rfl <;> decide

theorem own_two_le_countP {α : Type} (p : α → Bool) (l : List α) (d : α)
    (i j : Nat) (hij : i < j) (hj : j < l.length)
    (hpi : p (l.getD i d) = true) (hpj : p (l.getD j d) = true) :
    2 ≤ l.countP p := by
  induction l generalizing i j with
  | nil => simp at hj
  | cons a as ih =>
    cases i with
    | zero =>
      have hpa : p a = true := hpi
      cases j with
      | zero => omega
      | succ j2 =>
        have hj2 : j2 < as.length := by simpa using hj
        have hpj2 : p (as.getD j2 d) = true := hpj
        have hmem : as.getD j2 d ∈ as := own_getD_mem d hj2
        have hpos : 0 < as.countP p := List.countP_pos_iff.mpr ⟨as.getD j2 d, hmem, hpj2⟩
        have hone : (if p a = true then 1 else 0) = 1 := by simp [hpa]
        rw [List.countP_cons, hone]
        omega
    | succ i2 =>
      cases j with
      | zero => omega
      | succ j2 =>
        have h2 := ih i2 j2 (by omega) (by simpa using hj) hpi hpj
        rw [List.countP_cons]
        omega

theorem addCol_frame {df : DataFrame} {c : String} {f : List Value → Value}
    (hwf : WF df) (hc : c ∉ df.cols) :
    (addCol df c f).cols = df.cols ++ [c] ∧
    ∀ c2 ∈ df.cols, colValues (addCol df c f) c2 = colValues df c2 := by
  rw [addCol_not_mem hc]
  refine ⟨rfl, ?_⟩
  intro c2 hc2
  unfold colValues
  rw [List.map_map]
  apply own_map_congr
  intro r hr
  simp only [Function.comp_apply]
  exact getVal_append (hwf r hr) hc2

theorem getVal_closed_flags (cols : List String) (rows : List (List Value))
    (r : List Value) (hr : r.length = cols.length)
    (hnf : ∀ c ∈ cols, hasFlagPrefix c = false) :
    getVal ((cols ++ flagNames) ++ [sFO])
        ((r ++ flagValsOf cols rows r) ++ [overallOf cols rows r]) sFC =
      Value.int (compFlag cols r) ∧
    getVal ((cols ++ flagNames) ++ [sFO])
        ((r ++ flagValsOf cols rows r) ++ [overallOf cols rows r]) sFK =
      Value.int (consisFlag cols r) ∧
    getVal ((cols ++ flagNames) ++ [sFO])
        ((r ++ flagValsOf cols rows r) ++ [overallOf cols rows r]) sFV =
      Value.int (validFlag cols r) ∧
    getVal ((cols ++ flagNames) ++ [sFO])
        ((r ++ flagValsOf cols rows r) ++ [overallOf cols rows r]) sFU =
      Value.int (uniqFlag cols rows r) ∧
    getVal ((cols ++ flagNames) ++ [sFO])
        ((r ++ flagValsOf cols rows r) ++ [overallOf cols rows r]) sFO =
      Value.int (max (max (max (compFlag cols r) (consisFlag cols r))
        (validFlag cols r)) (uniqFlag cols rows r)) := by
  have hlen : (r ++ flagValsOf cols rows r).length = (cols ++ flagNames).length := by
    simp [List.length_append, flagValsOf, flagNames, hr]
  have hOnot : sFO ∉ cols ++ flagNames := by
    intro h
    rcases List.mem_append.mp h with h1 | h1
    · exact flag_not_mem hnf (by decide) h1
    · exact absurd h1 (by decide)
  refine ⟨?_, ?_, ?_, ?_, ?_⟩
  · rw [getVal_append hlen (List.mem_append.mpr (Or.inr (by decide))),
      getVal_append_right hr (flag_not_mem hnf (by decide))
        (by decide : colIdx flagNames sFC = some 0)]
    rfl
  · rw [getVal_append hlen (List.mem_append.mpr (Or.inr (by decide))),
      getVal_append_right hr (flag_not_mem hnf (by decide))
        (by decide : colIdx flagNames sFK = some 1)]
    rfl
  · rw [getVal_append hlen (List.mem_append.mpr (Or.inr (by decide))),
      getVal_append_right hr (flag_not_mem hnf (by decide))
        (by decide : colIdx flagNames sFV = some 2)]
    rfl
  · rw [getVal_append hlen (List.mem_append.mpr (Or.inr (by decide))),
      getVal_append_right hr (flag_not_mem hnf (by decide))
        (by decide : colIdx flagNames sFU = some 3)]
    rfl
  · rw [getVal_append_right hlen hOnot (by decide : colIdx [sFO] sFO = some 0)]
    rfl

/-! ## Claim theorems -/

/-- C2: the claim says the evaluators and the summary builder must not raise a
division error on a zero-record dataset.  The code violates this:
`check_consistency` computes `issues_count / len(df) * 100` with a Python
`int`, which raises `ZeroDivisionError` when `len(df) = 0` — modeled here by
the `error` result on the empty frame. -/
theorem c2_consistency_percentage_raises_on_empty :
    consistency_percentage wEmpty = Except.error () := rfl

/-- C3: after all four checks ran (which requires at least one record, since
`check_consistency` raises on an empty frame), `generate_quality_summary`
returns `max(0, 100 - total_issues / (record_count * 4) * 100)`, and the score
lies in `[0, 100]`. -/
theorem c3_score_formula_and_bounds (df : DataFrame) (h : 0 < df.rows.length) :
    overall_quality_score df =
      max 0 (100 - (((quality_totals df).sum : ℚ) /
        ((df.rows.length * 4 : Nat) : ℚ)) * 100) ∧
    0 ≤ overall_quality_score df ∧ overall_quality_score df ≤ 100 := by
  have hlen : (quality_totals df).length = 4 := by
    simp [quality_totals]
  have hform : overall_quality_score df =
      max 0 (100 - (((quality_totals df).sum : ℚ) /
        ((df.rows.length * 4 : Nat) : ℚ)) * 100) := by
    simp only [overall_quality_score]
    rw [hlen]
    rw [if_pos (by omega : 0 < df.rows.length * 4)]
  refine ⟨hform, ?_, ?_⟩
  · rw [hform]
    exact le_max_left 0 _
  · rw [hform]
    apply max_le (by norm_num)
    have hq : 0 ≤ (((quality_totals df).sum : ℚ) /
        ((df.rows.length * 4 : Nat) : ℚ)) * 100 := by positivity
    linarith

/-- C3 witness: the bounds hold on a concrete clean one-record frame. -/
theorem c3_witness : 0 ≤ overall_quality_score wClean :=
  (c3_score_formula_and_bounds wClean (by decide)).2.1

/-- C4: `check_completeness` appends a `flag_completeness` value per row that
is 1 exactly when some critical column present in the schema is null for that
record; when no named critical column exists in the schema, the columns
checked are the first `min(4, column_count)` columns of the dataset. -/
theorem c4_completeness_spec (df : DataFrame) (hfc : sFC ∉ df.cols) :
    (check_completeness df).rows =
      df.rows.map (fun r => r ++ [Value.int (compFlag df.cols r)]) ∧
    (critical_columns.filter (fun c => decide (c ∈ df.cols)) ≠ [] →
      ∀ r : List Value, (compFlag df.cols r = 1 ↔
        ∃ c ∈ critical_columns, c ∈ df.cols ∧ getVal df.cols r c = Value.null)) ∧
    (critical_columns.filter (fun c => decide (c ∈ df.cols)) = [] →
      completenessCheckCols df.cols = df.cols.take (min 4 df.cols.length) ∧
      ∀ r : List Value, (compFlag df.cols r = 1 ↔
        ∃ c ∈ df.cols.take (min 4 df.cols.length), getVal df.cols r c = Value.null)) := by
  refine ⟨?_, ?_, ?_⟩
  · unfold check_completeness
    rw [addCol_not_mem hfc]
  · intro hne r
    have hcc : completenessCheckCols df.cols =
        critical_columns.filter (fun c => decide (c ∈ df.cols)) := by
      unfold completenessCheckCols
      rw [if_neg hne]
    unfold compFlag
    rw [hcc, own_ite_flag_eq_one, List.any_eq_true]
    constructor
    · rintro ⟨c, hcmem, hcval⟩
      have h2 := List.mem_filter.mp hcmem
      have h3 : (getVal df.cols r c).notna = false := by simpa using hcval
      exact ⟨c, h2.1, by simpa using h2.2, notna_false_iff.mp h3⟩
    · rintro ⟨c, hcrit, hcin, hnull⟩
      refine ⟨c, List.mem_filter.mpr ⟨hcrit, by simpa using hcin⟩, ?_⟩
      rw [hnull]
      rfl
  · intro hemp
    have hcc : completenessCheckCols df.cols = df.cols.take (min 4 df.cols.length) := by
      unfold completenessCheckCols
      rw [if_pos hemp]
    refine ⟨hcc, ?_⟩
    intro r
    unfold compFlag
    rw [hcc, own_ite_flag_eq_one, List.any_eq_true]
    constructor
    · rintro ⟨c, hcmem, hcval⟩
      have h3 : (getVal df.cols r c).notna = false := by simpa using hcval
      exact ⟨c, hcmem, notna_false_iff.mp h3⟩
    · rintro ⟨c, hcmem, hnull⟩
      refine ⟨c, hcmem, ?_⟩
      rw [hnull]
      rfl

/-- C4 witness: a record with a null `timevalue` is flagged. -/
theorem c4_witness : compFlag wClean.cols [Value.null] = 1 :=
  ((c4_completeness_spec wClean (by decide)).2.1 (by decide) [Value.null]).mpr
    ⟨sTimevalue, by decide, by decide, by decide⟩

/-- C5: `check_uniqueness` appends a `flag_uniqueness` value per row that is 1
exactly when the row's key tuple (over the key columns present in the schema,
or all non-flag columns when none are) occurs at least twice in the dataset;
in particular both members of a duplicate pair are flagged, the first
occurrence included.  (The key set must be non-empty: pandas `duplicated` is
not defined on an empty subset.) -/
theorem c5_uniqueness_spec (df : DataFrame) (hfu : sFU ∉ df.cols)
    (hk : keyColsOf df.cols ≠ []) :
    (check_uniqueness df).cols = df.cols ++ [sFU] ∧
    (check_uniqueness df).rows =
      df.rows.map (fun r => r ++ [Value.int (uniqFlag df.cols df.rows r)]) ∧
    (∀ r : List Value, (uniqFlag df.cols df.rows r = 1 ↔
      2 ≤ df.rows.countP (fun r2 => decide (keyProj df.cols r2 = keyProj df.cols r)))) ∧
    (∀ i j : Nat, i < j → j < df.rows.length →
      keyProj df.cols (df.rows.getD i []) = keyProj df.cols (df.rows.getD j []) →
      uniqFlag df.cols df.rows (df.rows.getD i []) = 1 ∧
      uniqFlag df.cols df.rows (df.rows.getD j []) = 1) := by
  have hflag : ∀ r : List Value, (uniqFlag df.cols df.rows r = 1 ↔
      2 ≤ df.rows.countP (fun r2 => decide (keyProj df.cols r2 = keyProj df.cols r))) := by
    intro r
    unfold uniqFlag
    rw [own_ite_prop_eq_one]
  refine ⟨?_, ?_, hflag, ?_⟩
  · unfold check_uniqueness
    rw [addCol_not_mem hfu]
  · unfold check_uniqueness
    rw [addCol_not_mem hfu]
  · intro i j hij hj hproj
    constructor
    · rw [hflag]
      exact own_two_le_countP _ _ [] i j hij hj (decide_eq_true rfl)
        (decide_eq_true hproj.symm)
    · rw [hflag]
      rw [← hproj]
      exact own_two_le_countP _ _ [] i j hij hj (decide_eq_true rfl)
        (decide_eq_true hproj.symm)

/-- C5 witness: two records with the same `providerkey` are both flagged. -/
theorem c5_witness : uniqFlag wDup.cols wDup.rows (wDup.rows.getD 0 []) = 1 :=
  ((c5_uniqueness_spec wDup (by decide) (by decide)).2.2.2
    0 1 (by decide) (by decide) (by decide)).1

/-- C6 counterexample: the claim says a lower-case 3-letter currency value is
flagged, but the source upper-cases the value before matching `^[A-Z]{3}$`:
`"usd"` is not three upper-case letters, yet the record is not flagged. -/
theorem c6_counterexample :
    currencyPat (pyStr (Value.str ("usd"))) = false ∧
    (getVal [sUnitRevenue] [Value.str ("usd")] sUnitRevenue).notna = true ∧
    consisFlag [sUnitRevenue] [Value.str ("usd")] = 0 := by decide

/-- C6 (amended): for a present, non-null `unit_REVENUE` value the currency
sub-check fires exactly when the *upper-cased* string form fails `^[A-Z]{3}$`
(and then `flag_consistency` is 1); a lower-case 3-letter value is upper-cased
first and therefore not flagged. -/
theorem c6_currency_amended :
    (∀ (cols : List String) (r : List Value), sUnitRevenue ∈ cols →
      (getVal cols r sUnitRevenue).notna = true →
      ((currencyIssue (getVal cols r sUnitRevenue) = true ↔
        currencyPat (pyUpper (pyStr (getVal cols r sUnitRevenue))) = false) ∧
       (currencyIssue (getVal cols r sUnitRevenue) = true → consisFlag cols r = 1))) ∧
    currencyIssue (Value.str ("usd")) = false ∧
    currencyIssue (Value.str ("usdd")) = true := by
  refine ⟨?_, by decide, by decide⟩
  intro cols r hmem hnn
  constructor
  · unfold currencyIssue
    cases currencyPat (pyUpper (pyStr (getVal cols r sUnitRevenue))) <;> simp
  · intro hiss
    unfold consisFlag
    have hsub : subCurrency cols r = true := by
      unfold subCurrency
      rw [hnn, hiss]
      simp [hmem]
    simp [hsub]

/-- C6 witness: a two-letter value does fail the amended rule and flags. -/
theorem c6_witness : consisFlag [sUnitRevenue] [Value.str ("us")] = 1 :=
  (c6_currency_amended.1 [sUnitRevenue] [Value.str ("us")]
    (by decide) (by decide)).2 (by decide)

/-- C7: for a present, non-null `timevalue`, the year sub-check of
`check_validity` fires exactly when the value does not parse as an integer or
the parsed integer lies outside `[1900, 2030]`; when it fires the record is
flagged; `2019` is not flagged and `1850` is. -/
theorem c7_timevalue_spec :
    (∀ v : Value, v ≠ Value.null →
      (timevalueIssue v = true ↔
        ¬ ∃ y : Int, pyInt v = some y ∧ 1900 ≤ y ∧ y ≤ 2030)) ∧
    (∀ (cols : List String) (r : List Value), sTimevalue ∈ cols →
      (getVal cols r sTimevalue).notna = true →
      timevalueIssue (getVal cols r sTimevalue) = true → validFlag cols r = 1) ∧
    validFlag [sTimevalue] [Value.int 2019] = 0 ∧
    validFlag [sTimevalue] [Value.int 1850] = 1 := by
  refine ⟨?_, ?_, by decide, by decide⟩
  · intro v hv
    unfold timevalueIssue
    cases h : pyInt v with
    | none => simp
    | some y =>
      simp
      omega
  · intro cols r hmem hnn hiss
    unfold validFlag
    have hsub : subTimevalue cols r = true := by
      unfold subTimevalue
      rw [hnn, hiss]
      simp [hmem]
    simp [hsub]

/-- C7 witness: an unparsable year string flags the record. -/
theorem c7_witness : validFlag [sTimevalue] [Value.str ("19x5")] = 1 :=
  c7_timevalue_spec.2.1 [sTimevalue] [Value.str ("19x5")]
    (by decide) (by decide) (by decide)

theorem run_all_checks_cols (df : DataFrame) (hwf : WF df)
    (hnf : ∀ c ∈ df.cols, hasFlagPrefix c = false) :
    (run_all_checks df).cols = (df.cols ++ flagNames) ++ [sFO] := by
  rw [run_all_checks_closed df hwf hnf]

theorem run_all_checks_rows (df : DataFrame) (hwf : WF df)
    (hnf : ∀ c ∈ df.cols, hasFlagPrefix c = false) :
    (run_all_checks df).rows = df.rows.map (fun r =>
      (r ++ flagValsOf df.cols df.rows r) ++ [overallOf df.cols df.rows r]) := by
  rw [run_all_checks_closed df hwf hnf]

/-- C1 counterexample: on an input that already carries a `flag_x` column set
to 1, `flag_overall` becomes 1 although all four dimension flags are 0 — the
source maximizes over *every* `flag_`-prefixed column, not exactly the four. -/
theorem c1_counterexample :
    getVal (run_all_checks cexFlagExtra).cols
      ((run_all_checks cexFlagExtra).rows.getD 0 []) sFO = Value.int 1 ∧
    getVal (run_all_checks cexFlagExtra).cols
      ((run_all_checks cexFlagExtra).rows.getD 0 []) sFC = Value.int 0 ∧
    getVal (run_all_checks cexFlagExtra).cols
      ((run_all_checks cexFlagExtra).rows.getD 0 []) sFK = Value.int 0 ∧
    getVal (run_all_checks cexFlagExtra).cols
      ((run_all_checks cexFlagExtra).rows.getD 0 []) sFV = Value.int 0 ∧
    getVal (run_all_checks cexFlagExtra).cols
      ((run_all_checks cexFlagExtra).rows.getD 0 []) sFU = Value.int 0 ∧
    Value.int 1 ≠ Value.int (max (max (max 0 0) 0) (0 : Int)) := by decide

/-- C1 (amended): on an input dataset with no `flag_`-prefixed column (and at
least one column, so that the uniqueness key set is well defined),
`flag_overall[i]` equals the maximum of exactly the four dimension flags for
every record i. -/
theorem c1_flag_overall_is_max_of_four (df : DataFrame) (hwf : WF df)
    (hnf : ∀ c ∈ df.cols, hasFlagPrefix c = false) (hne : df.cols ≠ []) :
    ∀ r ∈ (run_all_checks df).rows,
      ∃ a b c d : Int,
        getVal (run_all_checks df).cols r sFC = Value.int a ∧
        getVal (run_all_checks df).cols r sFK = Value.int b ∧
        getVal (run_all_checks df).cols r sFV = Value.int c ∧
        getVal (run_all_checks df).cols r sFU = Value.int d ∧
        getVal (run_all_checks df).cols r sFO =
          Value.int (max (max (max a b) c) d) := by
  intro r hr
  rw [run_all_checks_rows df hwf hnf] at hr
  rw [run_all_checks_cols df hwf hnf]
  obtain ⟨r0, h0, rfl⟩ := List.mem_map.mp hr
  obtain ⟨gc, gk, gv, gu, go⟩ :=
    getVal_closed_flags df.cols df.rows r0 (hwf r0 h0) hnf
  exact ⟨_, _, _, _, gc, gk, gv, gu, go⟩

/-- C1 witness: the amended statement applied to a concrete clean frame. -/
theorem c1_witness :
    ∃ a b c d : Int,
      getVal (run_all_checks wClean).cols
        ((run_all_checks wClean).rows.getD 0 []) sFC = Value.int a ∧
      getVal (run_all_checks wClean).cols
        ((run_all_checks wClean).rows.getD 0 []) sFK = Value.int b ∧
      getVal (run_all_checks wClean).cols
        ((run_all_checks wClean).rows.getD 0 []) sFV = Value.int c ∧
      getVal (run_all_checks wClean).cols
        ((run_all_checks wClean).rows.getD 0 []) sFU = Value.int d ∧
      getVal (run_all_checks wClean).cols
        ((run_all_checks wClean).rows.getD 0 []) sFO =
          Value.int (max (max (max a b) c) d) :=
  c1_flag_overall_is_max_of_four wClean (by unfold WF; decide) (by decide)
    (by decide) ((run_all_checks wClean).rows.getD 0 []) (by decide)

/-- C8 counterexample: a frame whose first *raw* column is literally named
`flag_completeness` and holds a null.  The first run of the four evaluators
flags the record (the completeness fallback reads the null); the second run
reads the overwritten value 1 instead and un-flags it, so the flag columns
differ between the two runs. -/
theorem c8_counterexample :
    getVal (four_checks cexFlagNamed).cols
      ((four_checks cexFlagNamed).rows.getD 0 []) sFC = Value.int 1 ∧
    getVal (four_checks (four_checks cexFlagNamed)).cols
      ((four_checks (four_checks cexFlagNamed)).rows.getD 0 []) sFC =
        Value.int 0 := by decide

/-- C8 (amended): running the four evaluators a second time reproduces the
frame (hence every flag column) exactly, provided the input's original columns
contain no `flag_`-prefixed name and the dataset has at least one column (so
the uniqueness key set stays non-empty). -/
theorem c8_idempotent_amended (df : DataFrame) (hwf : WF df)
    (hnf : ∀ c ∈ df.cols, hasFlagPrefix c = false) (hne : df.cols ≠ []) :
    four_checks (four_checks df) = four_checks df := by
  rw [four_checks_closed df hwf hnf]
  unfold four_checks
  rw [fix_completeness df.cols df.rows hwf hnf,
    fix_consistency df.cols df.rows hwf hnf,
    fix_validity df.cols df.rows hwf hnf,
    fix_uniqueness df.cols df.rows hwf hnf]

/-- C8 witness: idempotence on a concrete clean frame. -/
theorem c8_witness : four_checks (four_checks wClean) = four_checks wClean :=
  c8_idempotent_amended wClean (by unfold WF; decide) (by decide) (by decide)

/-- C9 counterexample: a pre-existing `flag_x` column holding 7 survives
`run_all_checks` unchanged, so not every `flag_`-prefixed column of the output
holds only 0/1. -/
theorem c9_counterexample :
    sFlagX ∈ (run_all_checks cexFlagSeven).cols ∧
    hasFlagPrefix sFlagX = true ∧
    getVal (run_all_checks cexFlagSeven).cols
      ((run_all_checks cexFlagSeven).rows.getD 0 []) sFlagX = Value.int 7 ∧
    Value.int 7 ≠ Value.int 0 ∧ Value.int 7 ≠ Value.int 1 := by decide

/-- C9 (amended): on an input dataset with no `flag_`-prefixed column (and at
least one column), after `run_all_checks` every `flag_`-prefixed column holds
exactly one value per record and that value is 0 or 1. -/
theorem c9_flags_binary_amended (df : DataFrame) (hwf : WF df)
    (hnf : ∀ c ∈ df.cols, hasFlagPrefix c = false) (hne : df.cols ≠ []) :
    WF (run_all_checks df) ∧
    ∀ c ∈ (run_all_checks df).cols, hasFlagPrefix c = true →
      ∀ r ∈ (run_all_checks df).rows,
        getVal (run_all_checks df).cols r c = Value.int 0 ∨
        getVal (run_all_checks df).cols r c = Value.int 1 := by
  constructor
  · rw [run_all_checks_closed df hwf hnf]
    intro r hr
    obtain ⟨r0, h0, rfl⟩ := List.mem_map.mp hr
    simp [List.length_append, hwf r0 h0, flagValsOf, flagNames]
  · intro c hc hcf r hr
    rw [run_all_checks_cols df hwf hnf] at hc
    rw [run_all_checks_rows df hwf hnf] at hr
    rw [run_all_checks_cols df hwf hnf]
    obtain ⟨r0, h0, rfl⟩ := List.mem_map.mp hr
    have hcl := getVal_closed_flags df.cols df.rows r0 (hwf r0 h0) hnf
    rcases List.mem_append.mp hc with h1 | h1
    · rcases List.mem_append.mp h1 with h2 | h2
      · rw [hnf c h2] at hcf
        exact absurd hcf (by simp)
      · have h2x : c = sFC ∨ c = sFK ∨ c = sFV ∨ c = sFU := by
          simpa [flagNames] using h2
        rcases h2x with rfl | rfl | rfl | rfl
        · rcases compFlag01 df.cols r0 with h | h
          · exact Or.inl (by rw [hcl.1, h])
          · exact Or.inr (by rw [hcl.1, h])
        · rcases consisFlag01 df.cols r0 with h | h
          · exact Or.inl (by rw [hcl.2.1, h])
          · exact Or.inr (by rw [hcl.2.1, h])
        · rcases validFlag01 df.cols r0 with h | h
          · exact Or.inl (by rw [hcl.2.2.1, h])
          · exact Or.inr (by rw [hcl.2.2.1, h])
        · rcases uniqFlag01 df.cols df.rows r0 with h | h
          · exact Or.inl (by rw [hcl.2.2.2.1, h])
          · exact Or.inr (by rw [hcl.2.2.2.1, h])
    · have h1x : c = sFO := by simpa using h1
      subst h1x
      have hm := max01 (max01 (max01 (compFlag01 df.cols r0)
        (consisFlag01 df.cols r0)) (validFlag01 df.cols r0))
        (uniqFlag01 df.cols df.rows r0)
      rcases hm with h | h
      · exact Or.inl (by rw [hcl.2.2.2.2, h])
      · exact Or.inr (by rw [hcl.2.2.2.2, h])

/-- C9 witness: the amended statement applied to a concrete clean frame. -/
theorem c9_witness : WF (run_all_checks wClean) :=
  (c9_flags_binary_amended wClean (by unfold WF; decide) (by decide) (by decide)).1

/-- C10 counterexample: a frame that already carries a stale
`flag_completeness` column.  `check_completeness` overwrites the pre-existing
column in place (5 becomes 0) and appends nothing, so a pre-existing column is
changed and no column is appended at the end. -/
theorem c10_counterexample :
    (check_completeness cexStaleFlag).cols = cexStaleFlag.cols ∧
    colValues cexStaleFlag sFC = [Value.int 5] ∧
    colValues (check_completeness cexStaleFlag) sFC = [Value.int 0] := by decide

/-- C10 (amended): each of the four evaluators, whenever its own flag column
is not already present in the frame it receives, appends exactly that column
at the end and leaves every pre-existing column unchanged in name, order and
values.  The condition is per evaluator, so the statement covers the frames
arising mid-pipeline (e.g. `check_consistency` on a frame already carrying
`flag_completeness`); for `check_uniqueness` the key set must additionally be
non-empty, since pandas `duplicated` is undefined on an empty subset. -/
theorem c10_frame_amended (df : DataFrame) (hwf : WF df) :
    (sFC ∉ df.cols →
      (check_completeness df).cols = df.cols ++ [sFC] ∧
      ∀ c ∈ df.cols, colValues (check_completeness df) c = colValues df c) ∧
    (sFK ∉ df.cols →
      (check_consistency df).cols = df.cols ++ [sFK] ∧
      ∀ c ∈ df.cols, colValues (check_consistency df) c = colValues df c) ∧
    (sFV ∉ df.cols →
      (check_validity df).cols = df.cols ++ [sFV] ∧
      ∀ c ∈ df.cols, colValues (check_validity df) c = colValues df c) ∧
    (sFU ∉ df.cols → keyColsOf df.cols ≠ [] →
      (check_uniqueness df).cols = df.cols ++ [sFU] ∧
      ∀ c ∈ df.cols, colValues (check_uniqueness df) c = colValues df c) := by
  unfold check_completeness check_consistency check_validity check_uniqueness
  exact ⟨fun h1 => addCol_frame hwf h1, fun h2 => addCol_frame hwf h2,
    fun h3 => addCol_frame hwf h3, fun h4 _ => addCol_frame hwf h4⟩

/-- C10 witness: the amended statement applied to a concrete clean frame. -/
theorem c10_witness : (check_completeness wClean).cols = wClean.cols ++ [sFC] :=
  ((c10_frame_amended wClean (by unfold WF; decide)).1 (by decide)).1
